import Mathlib

/-!
Shallow embedding of the herp authentication subsystem.

Sources embedded here:
* `backend/internal/auth/service.go` — `Service.Login`, `Service.RefreshToken`,
  `Service.Logout`, `Service.IsTokenBlacklisted`, `Service.RevokeAllUserSessions`.
* `pkg/jwt` — `GenerateToken`, `ParseToken`, `Claims`.
* `backend/pkg/ratelimit/ratelimit.go` — `Check`, `Increment`.
* `backend/db/queries/user.sql` — the sqlc queries the service calls
  (`GetUserByEmail`, `GetUserByUsername`, `GetAdminByEmail`, `GetAdminByUsername`,
  `GetUserByID`, `GetUserPermissions`, `CreateRefreshToken`, `GetRefreshToken`,
  `RevokeRefreshToken`, `RevokeAllUserRefreshTokens`, `CleanExpiredRefreshTokens`).
* the auth middleware (`AuthMiiddleware`) from the auth package.

Modelling conventions:
* Go `time.Time` / `time.Duration` become `Int` (an abstract instant / length in
  a fixed unit); `time.Now()` becomes an explicit `now : Time` parameter.
* `sql.NullString` / `sql.NullBool` become `Option String` / `Option Bool`;
  Go's zero-value access `x.String` / `x.Bool` becomes `Option.getD _ ""` /
  `Option.getD _ false`.
* Database errors other than "row not found" and the background
  `cleanExpiredTokens` goroutine are not modelled; the database is total.
* bcrypt and HMAC-SHA256 are external libraries, modelled as ideal primitives:
  `bcrypt` comparison succeeds exactly when the stored hash was produced from
  the same plaintext, and a signature is the (secret, payload) pair itself,
  which a verifier recomputes and compares (collision-free MAC).
* Redis keys are produced in Go by `fmt.Sprintf` patterns with pairwise
  distinct literal key spaces (`jwt:blacklist:%s`, `user:%d:active_tokens`);
  the inductive `CacheKey` mirrors those patterns, and constructor disjointness
  mirrors the disjointness of the literal key spaces.
-/

namespace Herp

/-- An instant, in a fixed time unit (the Go code uses `time.Time`). -/
abbrev Time := Int

/-- A length of time (the Go code uses `time.Duration`). -/
abbrev Duration := Int

/-! ### pkg/jwt -/

/-- Token-type discriminator (`jwt.TokenType`: `access` / `refresh`). -/
inductive TokenType where
  | access
  | refresh
deriving DecidableEq, Repr

/-- The custom claim set of `pkg/jwt` (`jwt.Claims`): userId, username, email,
role, permissions, tokenType, plus the registered `exp` and `iat` claims. -/
structure Claims where
  userId : Int
  username : String
  email : String
  role : String
  permissions : List String
  tokenType : TokenType
  exp : Time
  iat : Time
deriving DecidableEq, Repr

/-- An ideal HMAC-SHA256 signature: the signing secret paired with the signed
payload. A verifier recomputes the pair from its own secret and the received
claims and compares — exactly the check `jwt.ParseWithClaims` performs, with
hash collisions idealised away. -/
structure Signature where
  secret : String
  payload : Claims
deriving DecidableEq, Repr

/-- A signed JWT: the claim set together with its signature
(`jwt.NewWithClaims(jwt.SigningMethodHS256, claims).SignedString(secret)`). -/
structure SignedToken where
  claims : Claims
  sig : Signature
deriving DecidableEq, Repr

/-- Errors of token verification: bad signature, or expiry in the past
(golang-jwt v5 validates `exp` during `ParseWithClaims`). -/
inductive JwtError where
  | invalidSignature
  | tokenExpired
deriving DecidableEq, Repr

/-- `jwt.GenerateToken(userID, username, email, role, secret, permissions,
tokenType, expiry)`: builds the claim set with `iat = now` and
`exp = now + expiry` and signs it with `secret`. -/
def jwtGenerateToken (userID : Int) (username email role secret : String)
    (permissions : List String) (tokenType : TokenType) (expiry : Duration)
    (now : Time) : SignedToken :=
  let claims : Claims :=
    { userId := userID, username := username, email := email, role := role
      permissions := permissions, tokenType := tokenType
      exp := now + expiry, iat := now }
  { claims := claims, sig := { secret := secret, payload := claims } }

/-- `jwt.ParseToken(tokenString, secret)`: verifies the signature with `secret`
and, as golang-jwt v5 does inside `ParseWithClaims`, validates the `exp` claim
against the current time (valid only while `now < exp`); returns the claims. -/
def jwtParseToken (t : SignedToken) (secret : String) (now : Time) :
    Except JwtError Claims :=
  if t.sig = { secret := secret, payload := t.claims } then
    if t.claims.exp ≤ now then .error .tokenExpired
    else .ok t.claims
  else .error .invalidSignature

/-! ### Database rows and tables (db/migrations, db/queries/user.sql) -/

/-- A `users` row (the columns the auth service reads; `email` is a nullable
unique column, `is_active` a nullable boolean). -/
structure UserRow where
  id : Int
  username : String
  email : Option String
  passwordHash : String
  isActive : Option Bool
  roleId : Int
deriving DecidableEq, Repr

/-- An `admins` row (the columns the auth service reads; `email`, `is_active`
are NOT NULL; the verification/reset-code columns are not used by `Login`). -/
structure AdminRow where
  id : Int
  username : String
  email : String
  passwordHash : String
  isActive : Bool
  roleId : Int
deriving DecidableEq, Repr

/-- A `roles` row. -/
structure RoleRow where
  id : Int
  name : String
deriving DecidableEq, Repr

/-- A `permissions` row. -/
structure PermissionRow where
  id : Int
  code : String
deriving DecidableEq, Repr

/-- A `role_permissions` join row. -/
structure RolePermissionRow where
  roleId : Int
  permissionId : Int
deriving DecidableEq, Repr

/-- A `refresh_tokens` row (`token` is UNIQUE in the schema). -/
structure RefreshTokenRow where
  userId : Int
  token : String
  expiresAt : Time
  revoked : Bool
deriving DecidableEq, Repr

/-- The relational store the auth service queries. -/
structure Db where
  users : List UserRow
  admins : List AdminRow
  roles : List RoleRow
  permissions : List PermissionRow
  rolePermissions : List RolePermissionRow
  refreshTokens : List RefreshTokenRow
deriving DecidableEq, Repr

/-- Result shape of `GetUserByEmail` / `GetUserByUsername` / `GetUserByID`:
the user columns joined (INNER JOIN) with `roles.name AS role_name`. -/
structure GetUserRow where
  id : Int
  username : String
  email : Option String
  passwordHash : String
  isActive : Option Bool
  roleName : String
deriving DecidableEq, Repr

/-- Result shape of `GetAdminByEmail` / `GetAdminByUsername`: the admin
columns joined (INNER JOIN) with `roles.name AS role_name`. -/
structure GetAdminRow where
  id : Int
  username : String
  email : String
  passwordHash : String
  isActive : Bool
  roleName : String
deriving DecidableEq, Repr

/-- `GetUserByEmail`: `SELECT u..., r.name FROM users u JOIN roles r ON
u.role_id = r.id WHERE u.email = $1 LIMIT 1` (the parameter is a non-null
`sql.NullString`). The INNER JOIN drops a user whose role id has no row. -/
def Db.getUserByEmail (db : Db) (email : String) : Option GetUserRow :=
  (db.users.find? (fun u => decide (u.email = some email))).bind (fun u =>
    (db.roles.find? (fun r => decide (r.id = u.roleId))).map (fun r =>
      { id := u.id, username := u.username, email := u.email
        passwordHash := u.passwordHash, isActive := u.isActive
        roleName := r.name }))

/-- `GetUserByUsername`: as `GetUserByEmail` with `WHERE u.username = $1`. -/
def Db.getUserByUsername (db : Db) (username : String) : Option GetUserRow :=
  (db.users.find? (fun u => decide (u.username = username))).bind (fun u =>
    (db.roles.find? (fun r => decide (r.id = u.roleId))).map (fun r =>
      { id := u.id, username := u.username, email := u.email
        passwordHash := u.passwordHash, isActive := u.isActive
        roleName := r.name }))

/-- `GetUserByID`: as `GetUserByEmail` with `WHERE u.id = $1`. -/
def Db.getUserByID (db : Db) (uid : Int) : Option GetUserRow :=
  (db.users.find? (fun u => decide (u.id = uid))).bind (fun u =>
    (db.roles.find? (fun r => decide (r.id = u.roleId))).map (fun r =>
      { id := u.id, username := u.username, email := u.email
        passwordHash := u.passwordHash, isActive := u.isActive
        roleName := r.name }))

/-- `GetAdminByEmail`: `SELECT a..., r.name FROM admins a JOIN roles r ON
a.role_id = r.id WHERE a.email = $1 LIMIT 1`. -/
def Db.getAdminByEmail (db : Db) (email : String) : Option GetAdminRow :=
  (db.admins.find? (fun a => decide (a.email = email))).bind (fun a =>
    (db.roles.find? (fun r => decide (r.id = a.roleId))).map (fun r =>
      { id := a.id, username := a.username, email := a.email
        passwordHash := a.passwordHash, isActive := a.isActive
        roleName := r.name }))

/-- `GetAdminByUsername`: as `GetAdminByEmail` with `WHERE a.username = $1`. -/
def Db.getAdminByUsername (db : Db) (username : String) : Option GetAdminRow :=
  (db.admins.find? (fun a => decide (a.username = username))).bind (fun a =>
    (db.roles.find? (fun r => decide (r.id = a.roleId))).map (fun r =>
      { id := a.id, username := a.username, email := a.email
        passwordHash := a.passwordHash, isActive := a.isActive
        roleName := r.name }))

/-- The Go zero value of `db.GetAdminByEmailRow`. When `GetAdminByEmail`
returns an error, the sqlc scan leaves the row at its zero value, and the
`adminByEmail` variable in `Login` holds this value in the admin-by-username
branch (which is only reached after `GetAdminByEmail` failed). -/
def adminByEmailZeroRow : GetAdminRow :=
  { id := 0, username := "", email := "", passwordHash := ""
    isActive := false, roleName := "" }

/-- `GetUserPermissions`: `SELECT p.code FROM permissions p JOIN
role_permissions rp ON p.id = rp.permission_id JOIN roles r ON rp.role_id =
r.id JOIN users u ON u.role_id = r.id WHERE u.id = $1`. Note the join is
through the `users` table: the parameter is looked up among user ids. -/
def Db.getUserPermissions (db : Db) (uid : Int) : List String :=
  (db.users.filter (fun u => decide (u.id = uid))).flatMap (fun u =>
    (db.roles.filter (fun r => decide (r.id = u.roleId))).flatMap (fun r =>
      (db.rolePermissions.filter (fun rp => decide (rp.roleId = r.id))).flatMap
        (fun rp =>
          (db.permissions.filter (fun p => decide (p.id = rp.permissionId))).map
            (fun p => p.code))))

/-- `CreateRefreshToken`: `INSERT INTO refresh_tokens (user_id, token,
expires_at) VALUES (...)`; the UNIQUE constraint on `token` makes the insert
fail on a colliding token string. -/
def Db.createRefreshToken (db : Db) (row : RefreshTokenRow) : Except Unit Db :=
  if db.refreshTokens.any (fun r => decide (r.token = row.token)) then .error ()
  else .ok { db with refreshTokens := db.refreshTokens ++ [row] }

/-- `GetRefreshToken`: `SELECT * FROM refresh_tokens WHERE token = $1 AND
expires_at > NOW() AND revoked = FALSE LIMIT 1`. -/
def Db.getRefreshToken (db : Db) (token : String) (now : Time) :
    Option RefreshTokenRow :=
  db.refreshTokens.find? (fun r =>
    decide (r.token = token) && decide (now < r.expiresAt) && !r.revoked)

/-- `RevokeRefreshToken`: `UPDATE refresh_tokens SET revoked = TRUE WHERE
token = $1`. -/
def Db.revokeRefreshToken (db : Db) (token : String) : Db :=
  { db with refreshTokens := db.refreshTokens.map (fun r =>
      if r.token = token then { r with revoked := true } else r) }

/-- `RevokeAllUserRefreshTokens`: `UPDATE refresh_tokens SET revoked = TRUE
WHERE user_id = $1`. -/
def Db.revokeAllUserRefreshTokens (db : Db) (uid : Int) : Db :=
  { db with refreshTokens := db.refreshTokens.map (fun r =>
      if r.userId = uid then { r with revoked := true } else r) }

/-- `CleanExpiredRefreshTokens`: `DELETE FROM refresh_tokens WHERE
expires_at <= NOW() OR revoked = TRUE`. -/
def Db.cleanExpiredRefreshTokens (db : Db) (now : Time) : Db :=
  { db with refreshTokens := db.refreshTokens.filter (fun r =>
      decide (now < r.expiresAt) && !r.revoked) }

/-! ### Redis cache (pkg/redis wrappers as used by the auth service) -/

/-- The cache keys the auth service writes, mirroring its `fmt.Sprintf`
patterns. The literal key spaces (`jwt:blacklist:%s` vs
`user:%d:active_tokens`) are disjoint by their literal parts, which
constructor disjointness captures. -/
inductive CacheKey where
  | jwtBlacklist (token : SignedToken)
  | userActiveTokens (userId : Int)
deriving DecidableEq, Repr

/-- A cache entry with its absolute expiry instant (Redis `SET ... EX ttl`
stores the value until `now + ttl`). -/
structure CacheEntry where
  key : CacheKey
  value : String
  expiresAt : Time
deriving DecidableEq, Repr

/-- The cache as a key-value store with per-key expiry. -/
abbrev Cache := List CacheEntry

/-- `redis.Set(key, value, ttl)` at instant `now`: replaces any entry at
`key`, the new entry self-expiring at `now + ttl`. -/
def Cache.set (c : Cache) (key : CacheKey) (value : String) (ttl : Duration)
    (now : Time) : Cache :=
  { key := key, value := value, expiresAt := now + ttl } ::
    c.filter (fun e => decide (e.key ≠ key))

/-- `redis.Delete(key)`. -/
def Cache.del (c : Cache) (key : CacheKey) : Cache :=
  c.filter (fun e => decide (e.key ≠ key))

/-- `redis.Exists(key)` at instant `now`: true while a non-expired entry for
`key` is present. -/
def Cache.existsKey (c : Cache) (key : CacheKey) (now : Time) : Bool :=
  c.any (fun e => decide (e.key = key) && decide (now < e.expiresAt))

/-! ### bcrypt (golang.org/x/crypto/bcrypt, idealised) -/

/-- Ideal model of `bcrypt.GenerateFromPassword`: an injective tag of the
plaintext (salting/cost are irrelevant to the control flow proved here). -/
def bcryptGenerateFromPassword (password : String) : String :=
  "$2a$12$" ++ password

/-- Ideal model of `bcrypt.CompareHashAndPassword` (nil error ↦ `true`):
succeeds exactly when the stored hash was produced from the same plaintext. -/
def bcryptCompareHashAndPassword (hash password : String) : Bool :=
  hash == bcryptGenerateFromPassword password

/-! ### The auth service (backend/internal/auth/service.go) -/

/-- The service's error values: `ErrInvalidCredentials`, `ErrUserInactive`,
the rate-limited failure surfaced as HTTP 429 by the handler, an error
propagated verbatim from `jwt.ParseToken` (in `Logout`), and any other
database error returned verbatim. -/
inductive AuthError where
  | invalidCredentials
  | userInactive
  | rateLimited
  | tokenError (e : JwtError)
  | internalError
deriving DecidableEq, Repr

/-- The auth `Service` configuration fields used by the embedded methods. -/
structure Service where
  jwtSecret : String
  jwtRefreshSecret : String
  accessExpiry : Duration
  refreshExpiry : Duration
deriving DecidableEq, Repr

/-- The mutable world the service acts on: the relational store and Redis. -/
structure SysState where
  db : Db
  cache : Cache
deriving DecidableEq, Repr

/-- The per-branch data `Login` extracts from a lookup row before running the
shared authentication tail: the id, the strings passed to
`jwt.GenerateToken` (username, email, role), the stored hash, and the boolean
the branch's `IsActive` test reads. -/
structure ResolvedPrincipal where
  id : Int
  username : String
  email : String
  tokenRole : String
  passwordHash : String
  isActive : Bool
deriving DecidableEq, Repr

/-- The view `Login`'s two user branches take of a user row:
`email.String` (`""` when NULL), `IsActive.Bool` (`false` when NULL), and the
joined role name as the token's role claim. -/
def userViewOf (u : GetUserRow) : ResolvedPrincipal :=
  { id := u.id, username := u.username, email := u.email.getD ""
    tokenRole := u.roleName, passwordHash := u.passwordHash
    isActive := u.isActive.getD false }

/-- The view the admin-by-email branch takes of an admin row. -/
def adminEmailViewOf (a : GetAdminRow) : ResolvedPrincipal :=
  { id := a.id, username := a.username, email := a.email
    tokenRole := a.roleName, passwordHash := a.passwordHash
    isActive := a.isActive }

/-- The view the admin-by-username branch takes of an admin row. The role
string this branch passes to `jwt.GenerateToken` is `adminByEmail.RoleName`
(service.go:302) — and `adminByEmail` is the zero row here, since this branch
runs only after `GetAdminByEmail` failed — not the resolved admin's role. -/
def adminUsernameViewOf (a : GetAdminRow) : ResolvedPrincipal :=
  { id := a.id, username := a.username, email := a.email
    tokenRole := adminByEmailZeroRow.roleName, passwordHash := a.passwordHash
    isActive := a.isActive }

/-- The authentication tail that each of `Login`'s four branches repeats
verbatim: inactive check, bcrypt comparison, permission fetch, access-token
issuance, and refresh-token insertion (`freshRefresh` stands for the value of
`generateRefreshToken()`, 32 random bytes hex-encoded). -/
def Service.completeLogin (s : Service) (st : SysState) (p : ResolvedPrincipal)
    (password : String) (now : Time) (freshRefresh : String) :
    Except AuthError (SignedToken × String) × SysState :=
  if p.isActive = false then (.error .userInactive, st)
  else if bcryptCompareHashAndPassword p.passwordHash password = false then
    (.error .invalidCredentials, st)
  else
    let permissions := st.db.getUserPermissions p.id
    let token := jwtGenerateToken p.id p.username p.email p.tokenRole
      s.jwtSecret permissions .access s.accessExpiry now
    match st.db.createRefreshToken
        { userId := p.id, token := freshRefresh
          expiresAt := now + s.refreshExpiry, revoked := false } with
    | .error _ => (.error .internalError, st)
    | .ok db' => (.ok (token, freshRefresh), { st with db := db' })

/-- `Service.Login(ctx, emailOrUsername, password)`: four lookup branches in
source order — user by email, user by username, admin by email, admin by
username — each falling through on lookup error and otherwise running the
authentication tail; `ErrInvalidCredentials` when no lookup matches. -/
def Service.login (s : Service) (st : SysState) (emailOrUsername password : String)
    (now : Time) (freshRefresh : String) :
    Except AuthError (SignedToken × String) × SysState :=
  match st.db.getUserByEmail emailOrUsername with
  | some u => s.completeLogin st (userViewOf u) password now freshRefresh
  | none =>
    match st.db.getUserByUsername emailOrUsername with
    | some u => s.completeLogin st (userViewOf u) password now freshRefresh
    | none =>
      match st.db.getAdminByEmail emailOrUsername with
      | some a => s.completeLogin st (adminEmailViewOf a) password now freshRefresh
      | none =>
        match st.db.getAdminByUsername emailOrUsername with
        | some a =>
          s.completeLogin st (adminUsernameViewOf a) password now freshRefresh
        | none => (.error .invalidCredentials, st)

/-- The spec's principal resolution, in its words: "try User-by-email, then
User-by-username, then Admin-by-email, then Admin-by-username, in that fixed
order, stopping at the first match". -/
def Db.resolvePrincipal (db : Db) (identifier : String) :
    Option ResolvedPrincipal :=
  match db.getUserByEmail identifier with
  | some u => some (userViewOf u)
  | none =>
    match db.getUserByUsername identifier with
    | some u => some (userViewOf u)
    | none =>
      match db.getAdminByEmail identifier with
      | some a => some (adminEmailViewOf a)
      | none =>
        match db.getAdminByUsername identifier with
        | some a => some (adminUsernameViewOf a)
        | none => none

/-- `Service.RefreshToken(ctx, refreshToken)`: store lookup (revoked /
expired rows filtered out by the query), a second expiry check, user reload,
inactive check, new access token, new refresh-token insert, then best-effort
revocation of the old token (its error is only logged). -/
def Service.refreshToken (s : Service) (st : SysState) (oldToken : String)
    (now : Time) (freshRefresh : String) :
    Except AuthError (SignedToken × String) × SysState :=
  match st.db.getRefreshToken oldToken now with
  | none => (.error .invalidCredentials, st)
  | some tokenRecord =>
    if tokenRecord.expiresAt < now then (.error .invalidCredentials, st)
    else
      match st.db.getUserByID tokenRecord.userId with
      | none => (.error .internalError, st)
      | some user =>
        if user.isActive.getD false = false then (.error .userInactive, st)
        else
          let permissions := st.db.getUserPermissions user.id
          let newAccessToken := jwtGenerateToken user.id user.username
            (user.email.getD "") user.roleName s.jwtSecret permissions .access
            s.accessExpiry now
          match st.db.createRefreshToken
              { userId := user.id, token := freshRefresh
                expiresAt := now + s.refreshExpiry, revoked := false } with
          | .error _ => (.error .internalError, st)
          | .ok db' =>
            (.ok (newAccessToken, freshRefresh),
              { st with db := db'.revokeRefreshToken oldToken })

/-- `Service.Logout(ctx, token, expiry)`: parse the token (propagating any
parse error), and while the remaining lifetime is positive blacklist the
token under `jwt:blacklist:%s` with TTL equal to that remaining lifetime.
The `expiry` argument the handler passes is unused by the method body. -/
def Service.logout (s : Service) (st : SysState) (token : SignedToken)
    (now : Time) : Except AuthError Unit × SysState :=
  match jwtParseToken token s.jwtSecret now with
  | .error e => (.error (.tokenError e), st)
  | .ok claims =>
    let remainingTime := claims.exp - now
    if 0 < remainingTime then
      (.ok (), { st with
        cache := Cache.set st.cache (.jwtBlacklist token) "1" remainingTime now })
    else (.ok (), st)

/-- `Service.IsTokenBlacklisted(ctx, token)`: Redis `Exists` on
`jwt:blacklist:%s`. -/
def Service.isTokenBlacklisted (st : SysState) (token : SignedToken)
    (now : Time) : Bool :=
  Cache.existsKey st.cache (.jwtBlacklist token) now

/-- `Service.RevokeAllUserSessions(ctx, userID)`: revoke all the user's
refresh tokens, then delete the single cache key `user:%d:active_tokens`. -/
def Service.revokeAllUserSessions (st : SysState) (userID : Int) : SysState :=
  { db := st.db.revokeAllUserRefreshTokens userID
    cache := Cache.del st.cache (.userActiveTokens userID) }

/-! ### Authorization middleware (AuthMiiddleware) -/

/-- Outcome of the authorization middleware for a presented bearer token:
claims injected into the context, or the 401 abort. (Bearer-header
extraction and Redis transport failures are outside the modelled paths.) -/
inductive MwOutcome where
  | accepted (claims : Claims)
  | unauthorized
deriving DecidableEq, Repr

/-- `AuthMiiddleware`: parse the bearer token with the service's secret
(401 on any parse error), then reject blacklisted tokens (401), otherwise
inject the claims. -/
def authMiddleware (s : Service) (st : SysState) (token : SignedToken)
    (now : Time) : MwOutcome :=
  match jwtParseToken token s.jwtSecret now with
  | .error _ => .unauthorized
  | .ok claims =>
    if Service.isTokenBlacklisted st token now then .unauthorized
    else .accepted claims

/-! ### Rate limiter (backend/pkg/ratelimit/ratelimit.go) -/

/-- The Redis sorted sets the rate limiter keeps: key ↦ the member
timestamps (each `Increment` adds the current instant). -/
abbrev RlStore := List (String × List Time)

/-- The timestamps stored under a key. -/
def rlEntries : RlStore → String → List Time
  | [], _ => []
  | kv :: rest, key => if kv.1 = key then kv.2 else rlEntries rest key

/-- Replace the timestamps stored under a key. -/
def rlUpdate (rl : RlStore) (key : String) (ts : List Time) : RlStore :=
  (key, ts) :: rl.filter (fun kv => decide (kv.1 ≠ key))

/-- `RateLimiter.Check(ctx, key, limit, window)`: remove the entries with
score at most `now - window` (`ZRemRangeByScore key 0 windowStart`), count
the rest (`ZCard`), and report exceeded exactly when `count > limit`.
Returns (exceeded, count) and the purged store; the reset-duration result,
which no caller of the login path consumes, is not modelled. -/
def rlCheck (rl : RlStore) (key : String) (limit : Nat) (window : Duration)
    (now : Time) : (Bool × Nat) × RlStore :=
  let windowStart := now - window
  let kept := (rlEntries rl key).filter (fun t => decide (windowStart < t))
  ((decide (kept.length > limit), kept.length), rlUpdate rl key kept)

/-- `RateLimiter.Increment(ctx, key, window)`: `ZAdd` the current instant
(the key-level TTL of `window + time.Minute` only bounds storage; the
sliding-window purge in `Check` governs the counting semantics). -/
def rlIncrement (rl : RlStore) (key : String) (now : Time) : RlStore :=
  rlUpdate rl key (rlEntries rl key ++ [now])

/-- Spec §4.6 step 6 / §4.5: clearing a key's counters (Redis `DEL`). -/
def rlResetKey (rl : RlStore) (key : String) : RlStore :=
  rl.filter (fun kv => decide (kv.1 ≠ key))

/-- The login rate-limit policy knobs (`LOGIN_RATE_LIMIT`, `IP_RATE_LIMIT`,
`LOGIN_RATE_WINDOW` in the configuration). -/
structure RlConfig where
  loginLimit : Nat
  ipLimit : Nat
  window : Duration
deriving DecidableEq, Repr

/-- Modelled from the spec: the deployed five-argument
`Login(ctx, identifier, password, ip, ua)` — declared in `ServiceInterface`
(service_iface.go), called by the login handler and constructed with the
rate-limit knobs in main.go — is not among the source files; only its
interface, its callers and the `ratelimit` package are. Following spec §4.6:
step 1 checks the per-identifier and the per-IP sliding windows first and
fails `RateLimited` before any credential-store access when either window is
exceeded; steps 3 and 5 increment both counters on an `InvalidCredentials`
failure; step 4 leaves the counters untouched on `UserInactive`; step 6
clears the identifier's counter on success. The window semantics are the
real `RateLimiter.Check` / `Increment` translated above from
backend/pkg/ratelimit/ratelimit.go. -/
def Service.loginRateLimited (s : Service) (rc : RlConfig) (st : SysState)
    (rl : RlStore) (identifier password ip : String) (now : Time)
    (freshRefresh : String) :
    Except AuthError (SignedToken × String) × SysState × RlStore :=
  let idKey := "login:attempts:" ++ identifier
  let ipKey := "login:ip:" ++ ip
  let idCheck := rlCheck rl idKey rc.loginLimit rc.window now
  let ipCheck := rlCheck idCheck.2 ipKey rc.ipLimit rc.window now
  if idCheck.1.1 || ipCheck.1.1 then (.error .rateLimited, st, ipCheck.2)
  else
    match s.login st identifier password now freshRefresh with
    | (.error .invalidCredentials, st') =>
      (.error .invalidCredentials, st',
        rlIncrement (rlIncrement ipCheck.2 idKey now) ipKey now)
    | (.ok v, st') => (.ok v, st', rlResetKey ipCheck.2 idKey)
    | (e, st') => (e, st', ipCheck.2)

/-- The number of timestamps a key holds inside the sliding window — the
count `RateLimiter.Check` reports after its purge. -/
def rlWindowCount (rl : RlStore) (key : String) (window : Duration)
    (now : Time) : Nat :=
  ((rlEntries rl key).filter (fun t => decide (now - window < t))).length

/-! ### Service operations as a transition system (for reachability claims) -/

/-- The state-changing service operations, used to quantify over "any later
sequence of service calls". The `freshRefresh` components stand for the
outputs of `generateRefreshToken()` (256 random bits, hex-encoded). -/
inductive Op where
  | opLogin (identifier password : String) (now : Time) (freshRefresh : String)
  | opRefresh (token : String) (now : Time) (freshRefresh : String)
  | opLogout (token : SignedToken) (now : Time)
  | opRevokeAll (userId : Int)
  | opSweep (now : Time)
deriving DecidableEq, Repr

/-- The fresh random refresh-token string an operation consumes, if any. -/
def Op.freshTokenOf : Op → Option String
  | .opLogin _ _ _ f => some f
  | .opRefresh _ _ f => some f
  | _ => none

/-- Run one service operation on the world state. -/
def Service.applyOp (s : Service) (st : SysState) : Op → SysState
  | .opLogin identifier password now f => (s.login st identifier password now f).2
  | .opRefresh tok now f => (s.refreshToken st tok now f).2
  | .opLogout tok now => (s.logout st tok now).2
  | .opRevokeAll uid => Service.revokeAllUserSessions st uid
  | .opSweep now => { st with db := st.db.cleanExpiredRefreshTokens now }

/-- Run a sequence of service operations on the world state. -/
def Service.applyOps (s : Service) (st : SysState) (ops : List Op) : SysState :=
  ops.foldl s.applyOp st

/-- Every `refresh_tokens` row holding a given token string is revoked. -/
def revokedEverywhere (st : SysState) (tok : String) : Prop :=
  ∀ r ∈ st.db.refreshTokens, r.token = tok → r.revoked = true

/-- Following the spec's words: a role's joined permission codes, read off
`role_permissions ⋈ permissions` for the given role id. Stated for
comparison with what the code actually issues. -/
def specRolePermissionCodes (db : Db) (roleId : Int) : List String :=
  (db.rolePermissions.filter (fun rp => decide (rp.roleId = roleId))).flatMap
    (fun rp =>
      (db.permissions.filter (fun p => decide (p.id = rp.permissionId))).map
        (fun p => p.code))

/-! ### Concrete fixtures used by counterexamples and witnesses -/

/-- A service configuration with symbolic secrets and the default expiries
(15-minute access, 720-hour refresh, in abstract units). -/
def fixSvc : Service :=
  { jwtSecret := "s", jwtRefreshSecret := "s"
    accessExpiry := 15, refreshExpiry := 720 }

/-- A store with one active user `alice` (role `admin`, one permission). -/
def fixUserDb : Db :=
  { users := [{ id := 1, username := "alice", email := some "a@x.com"
                passwordHash := bcryptGenerateFromPassword "pw"
                isActive := some true, roleId := 1 }]
    admins := []
    roles := [{ id := 1, name := "admin" }]
    permissions := [{ id := 1, code := "pos:sell" }]
    rolePermissions := [{ roleId := 1, permissionId := 1 }]
    refreshTokens := [] }

/-- `fixUserDb` with an empty cache. -/
def fixUserSt : SysState := { db := fixUserDb, cache := [] }

/-- A store whose only principal is an admin reachable by username only:
`boss`, role `admin`, active, no user shares its id. -/
def fixAdminDb : Db :=
  { users := []
    admins := [{ id := 7, username := "boss", email := "boss@x.com"
                 passwordHash := bcryptGenerateFromPassword "pw"
                 isActive := true, roleId := 1 }]
    roles := [{ id := 1, name := "admin" }]
    permissions := [{ id := 1, code := "pos:sell" }]
    rolePermissions := [{ roleId := 1, permissionId := 1 }]
    refreshTokens := [] }

/-- `fixAdminDb` with an empty cache. -/
def fixAdminSt : SysState := { db := fixAdminDb, cache := [] }

/-- A store with one inactive user `bob`. -/
def fixInactiveDb : Db :=
  { users := [{ id := 2, username := "bob", email := some "b@x.com"
                passwordHash := bcryptGenerateFromPassword "pw"
                isActive := some false, roleId := 1 }]
    admins := []
    roles := [{ id := 1, name := "admin" }]
    permissions := [], rolePermissions := [], refreshTokens := [] }

/-- `fixInactiveDb` with an empty cache. -/
def fixInactiveSt : SysState := { db := fixInactiveDb, cache := [] }

/-- An entirely empty world. -/
def fixEmptySt : SysState :=
  { db := { users := [], admins := [], roles := [], permissions := []
            rolePermissions := [], refreshTokens := [] }
    cache := [] }

/-- `fixUserDb` plus one live refresh token `old` for alice. -/
def fixRefreshSt : SysState :=
  { db := { fixUserDb with refreshTokens :=
      [{ userId := 1, token := "old", expiresAt := 1000, revoked := false }] }
    cache := [] }

/-- A well-formed access token for alice, signed with `fixSvc`'s secret,
issued at 0 with a 15-unit lifetime (`exp = 15`). -/
def fixTok : SignedToken :=
  jwtGenerateToken 1 "alice" "a@x.com" "admin" "s" ["pos:sell"] .access 15 0

/-- The rate-limit knobs used by the concrete rate-limit scenarios:
identifier limit 1, IP limit 100, window 100. -/
def fixRlConfig : RlConfig := { loginLimit := 1, ipLimit := 100, window := 100 }

/-- A rate-limit store in which `alice` has exactly one (= the configured
limit) failed attempt inside the window at instant 100. -/
def fixRlAtLimit : RlStore := [("login:attempts:alice", [95])]

/-- A rate-limit store in which `alice` has two (> the configured limit)
failed attempts inside the window at instant 100. -/
def fixRlOverLimit : RlStore := [("login:attempts:alice", [95, 96])]

end Herp

deriving instance DecidableEq for Except

namespace Herp

/-! ### Shared lemmas -/

/-- `Login` factors through the spec's ordered principal resolution: its
result is the authentication tail applied to the first lookup that matches,
and `ErrInvalidCredentials` when none does. -/
theorem login_eq_resolvePrincipal (s : Service) (st : SysState)
    (identifier password : String) (now : Time) (fresh : String) :
    s.login st identifier password now fresh =
      match st.db.resolvePrincipal identifier with
      | some p => s.completeLogin st p password now fresh
      | none => (.error .invalidCredentials, st) := by
  unfold Service.login Db.resolvePrincipal
  cases st.db.getUserByEmail identifier with
  | some u => rfl
  | none =>
    cases st.db.getUserByUsername identifier with
    | some u => rfl
    | none =>
      cases st.db.getAdminByEmail identifier with
      | some a => rfl
      | none =>
        cases st.db.getAdminByUsername identifier with
        | some a => rfl
        | none => rfl

/-- The authentication tail never reads the `admins` table: its returned
`Except` value is unchanged under any replacement of that table. -/
theorem completeLogin_fst_admins (s : Service) (st : SysState)
    (A : List AdminRow) (p : ResolvedPrincipal) (pw : String) (now : Time)
    (fresh : String) :
    (s.completeLogin { st with db := { st.db with admins := A } } p pw now fresh).1
      = (s.completeLogin st p pw now fresh).1 := by
  unfold Service.completeLogin
  by_cases h1 : p.isActive = false
  · simp [h1]
  · by_cases h2 : bcryptCompareHashAndPassword p.passwordHash pw = false
    · simp [h1, h2]
    · simp only [h1, h2, if_false]
      unfold Db.createRefreshToken
      by_cases h3 : st.db.refreshTokens.any (fun r => decide (r.token = fresh))
      · simp [h3]
      · simp [h3]
        rfl

/-! ### Claim theorems -/

/-- Claim C2 (code_bug evidence): with an active admin `boss` (role `admin`,
role permissions `[pos:sell]`) resolvable only by username, a correct-password
`Login` succeeds but issues an access token whose role claim is `""` (read
from the zero-valued `adminByEmail` row at service.go:302) and whose
permission list is `[]` (`GetUserPermissions` joins through the `users`
table, which has no row with the admin's id) — instead of the principal's
role name and its role's joined permission codes. -/
theorem login_admin_by_username_wrong_claims :
    ((Service.login fixSvc fixAdminSt "boss" "pw" 0 "r1").1.toOption.map
        (fun v => (v.1.claims.role, v.1.claims.permissions))) = some ("", [])
    ∧ (Db.getAdminByUsername fixAdminDb "boss").map (fun a => a.roleName)
        = some "admin"
    ∧ specRolePermissionCodes fixAdminDb 1 = ["pos:sell"] :=
  ⟨rfl, rfl, rfl⟩

/-- Claim C5: whenever `Login`'s ordered lookup resolves a principal whose
active flag reads false, the call fails with `ErrUserInactive`, for every
password — the inactive test precedes the bcrypt comparison in every
branch. -/
theorem login_inactive_rejected (s : Service) (st : SysState)
    (identifier password : String) (now : Time) (fresh : String)
    (p : ResolvedPrincipal)
    (hres : st.db.resolvePrincipal identifier = some p)
    (hina : p.isActive = false) :
    (s.login st identifier password now fresh).1 = .error .userInactive := by
  rw [login_eq_resolvePrincipal, hres]
  simp [Service.completeLogin, hina]

/-- Claim C5 witness: the inactive user `bob` with the correct password is
rejected with `ErrUserInactive`. -/
theorem login_inactive_rejected_witness :
    (Service.login fixSvc fixInactiveSt "bob" "pw" 0 "r1").1
      = .error .userInactive :=
  login_inactive_rejected fixSvc fixInactiveSt "bob" "pw" 0 "r1"
    { id := 2, username := "bob", email := "b@x.com", tokenRole := "admin"
      passwordHash := bcryptGenerateFromPassword "pw", isActive := false }
    (by decide) rfl

/-- Claim C6: `Login` returns the identical `ErrInvalidCredentials` value
both when no lookup resolves the identifier and when a resolved, active
principal fails the password comparison. -/
theorem login_uniform_invalid_credentials (s : Service) (st : SysState)
    (identifier password : String) (now : Time) (fresh : String) :
    (st.db.resolvePrincipal identifier = none →
      (s.login st identifier password now fresh).1 = .error .invalidCredentials)
    ∧ (∀ p, st.db.resolvePrincipal identifier = some p → p.isActive = true →
        bcryptCompareHashAndPassword p.passwordHash password = false →
        (s.login st identifier password now fresh).1
          = .error .invalidCredentials) := by
  constructor
  · intro h
    rw [login_eq_resolvePrincipal, h]
  · intro p h hact hpw
    rw [login_eq_resolvePrincipal, h]
    simp [Service.completeLogin, hact, hpw]

/-- Claim C6 witness: an unknown identifier in an empty store and a wrong
password for the existing user `alice` both yield `ErrInvalidCredentials`. -/
theorem login_uniform_invalid_credentials_witness :
    (Service.login fixSvc fixEmptySt "ghost" "pw" 0 "r1").1
        = .error .invalidCredentials
    ∧ (Service.login fixSvc fixUserSt "alice" "wrong" 0 "r1").1
        = .error .invalidCredentials :=
  ⟨(login_uniform_invalid_credentials fixSvc fixEmptySt "ghost" "pw" 0 "r1").1
      rfl,
   (login_uniform_invalid_credentials fixSvc fixUserSt "alice" "wrong" 0 "r1").2
      { id := 1, username := "alice", email := "a@x.com", tokenRole := "admin"
        passwordHash := bcryptGenerateFromPassword "pw", isActive := true }
      (by decide) rfl (by decide)⟩

/-- Claim C7: `Login` resolves principals by trying user-by-email,
user-by-username, admin-by-email, admin-by-username in exactly that order,
its whole result determined by the first match; and once a user lookup
matches, the admin table is never consulted — replacing it arbitrarily
leaves the returned value unchanged. -/
theorem login_lookup_order (s : Service) (st : SysState)
    (identifier password : String) (now : Time) (fresh : String) :
    (s.login st identifier password now fresh =
      match st.db.resolvePrincipal identifier with
      | some p => s.completeLogin st p password now fresh
      | none => (.error .invalidCredentials, st))
    ∧ (((st.db.getUserByEmail identifier).isSome
          ∨ (st.db.getUserByUsername identifier).isSome) →
        ∀ A : List AdminRow,
          (s.login { st with db := { st.db with admins := A } }
              identifier password now fresh).1
            = (s.login st identifier password now fresh).1) := by
  refine ⟨login_eq_resolvePrincipal s st identifier password now fresh, ?_⟩
  intro h A
  have heq1 : Db.getUserByEmail { st.db with admins := A } identifier
      = st.db.getUserByEmail identifier := rfl
  have heq2 : Db.getUserByUsername { st.db with admins := A } identifier
      = st.db.getUserByUsername identifier := rfl
  cases he : st.db.getUserByEmail identifier with
  | some u =>
    unfold Service.login
    rw [heq1, he]
    exact completeLogin_fst_admins s st A (userViewOf u) password now fresh
  | none =>
    cases hu : st.db.getUserByUsername identifier with
    | some u =>
      unfold Service.login
      rw [heq1, he, heq2, hu]
      exact completeLogin_fst_admins s st A (userViewOf u) password now fresh
    | none =>
      rcases h with h | h
      · rw [he] at h
        simp at h
      · rw [hu] at h
        simp at h

/-- Claim C7 witness: with `alice` resolvable by email, the dispatch equation
holds and injecting an arbitrary admin table does not change the outcome. -/
theorem login_lookup_order_witness :
    (Service.login fixSvc fixUserSt "a@x.com" "pw" 0 "r1" =
      match Db.resolvePrincipal fixUserSt.db "a@x.com" with
      | some p => Service.completeLogin fixSvc fixUserSt p "pw" 0 "r1"
      | none => (.error .invalidCredentials, fixUserSt))
    ∧ (Service.login fixSvc
        { fixUserSt with db := { fixUserSt.db with admins :=
            [{ id := 9, username := "a@x.com", email := "a@x.com"
               passwordHash := "other", isActive := true, roleId := 1 }] } }
        "a@x.com" "pw" 0 "r1").1
      = (Service.login fixSvc fixUserSt "a@x.com" "pw" 0 "r1").1 :=
  ⟨(login_lookup_order fixSvc fixUserSt "a@x.com" "pw" 0 "r1").1,
   (login_lookup_order fixSvc fixUserSt "a@x.com" "pw" 0 "r1").2
      (Or.inl (by decide)) _⟩

/-- Claim C8 counterexample: `fixTok` is well-formed and correctly signed
but expired at instant 20, and `Logout` then returns the token-expired parse
error rather than succeeding. -/
theorem logout_expired_token_cex :
    fixTok.sig = { secret := fixSvc.jwtSecret, payload := fixTok.claims }
    ∧ fixTok.claims.exp ≤ 20
    ∧ (Service.logout fixSvc fixUserSt fixTok 20).1
        = .error (.tokenError .tokenExpired) :=
  ⟨rfl, by decide, rfl⟩

/-- Claim C8 (amended): `Logout` of a correctly signed access token whose
expiry has already passed fails with the token-expired parse error
propagated from `jwt.ParseToken` and leaves the state — in particular the
blacklist — unchanged; golang-jwt validates `exp` during parsing, so the
remaining-lifetime branch is never reached for such a token. -/
theorem logout_expired_token_fails (s : Service) (st : SysState)
    (tok : SignedToken) (now : Time)
    (hsig : tok.sig = { secret := s.jwtSecret, payload := tok.claims })
    (hexp : tok.claims.exp ≤ now) :
    Service.logout s st tok now = (.error (.tokenError .tokenExpired), st) := by
  unfold Service.logout jwtParseToken
  simp [hsig, hexp]

/-- Claim C8 witness: the amended behaviour at the concrete expired token. -/
theorem logout_expired_token_fails_witness :
    Service.logout fixSvc fixUserSt fixTok 20
      = (.error (.tokenError .tokenExpired), fixUserSt) :=
  logout_expired_token_fails fixSvc fixUserSt fixTok 20 rfl (by decide)

/-- Claim C9: parsing a generated token with the same secret before its TTL
elapses returns claims equal to the originals on every field except the
`iat`/`exp` timestamps (which are `now` and `now + ttl`). -/
theorem generateToken_parseToken_roundtrip (userID : Int)
    (username email role secret : String) (permissions : List String)
    (tokenType : TokenType) (ttl : Duration) (now parseAt : Time)
    (hpos : 0 < ttl) (hwithin : parseAt < now + ttl) :
    jwtParseToken
        (jwtGenerateToken userID username email role secret permissions
          tokenType ttl now) secret parseAt
      = .ok { userId := userID, username := username, email := email
              role := role, permissions := permissions, tokenType := tokenType
              exp := now + ttl, iat := now } := by
  unfold jwtGenerateToken jwtParseToken
  simp [not_le.mpr hwithin]

/-- Claim C9 witness: the round trip at a concrete claim set, a 15-unit TTL
and a parse instant inside the TTL. -/
theorem generateToken_parseToken_roundtrip_witness :
    jwtParseToken
        (jwtGenerateToken 1 "alice" "a@x.com" "admin" "s" ["pos:sell"]
          .access 15 0) "s" 10
      = .ok { userId := 1, username := "alice", email := "a@x.com"
              role := "admin", permissions := ["pos:sell"]
              tokenType := .access, exp := 15, iat := 0 } := by
  simpa using generateToken_parseToken_roundtrip 1 "alice" "a@x.com" "admin"
    "s" ["pos:sell"] .access 15 0 10 (by decide) (by decide)

/-- Claim C4: for a correctly signed token with positive remaining lifetime,
`Logout` succeeds, records the blacklist entry keyed by the token with TTL
equal to the remaining lifetime (`exp - now`, so the entry expires at
`now + (exp - now)`), and any later middleware use of the token while its
signature and expiry are still valid is rejected as unauthorized. -/
theorem logout_blacklists_token (s : Service) (st : SysState)
    (tok : SignedToken) (now : Time)
    (hsig : tok.sig = { secret := s.jwtSecret, payload := tok.claims })
    (hlive : now < tok.claims.exp) :
    (Service.logout s st tok now).1 = .ok ()
    ∧ ((Service.logout s st tok now).2).cache =
        { key := .jwtBlacklist tok, value := "1"
          expiresAt := now + (tok.claims.exp - now) } ::
          List.filter (fun e => decide (e.key ≠ .jwtBlacklist tok)) st.cache
    ∧ (∀ now', now ≤ now' → now' < tok.claims.exp →
        authMiddleware s ((Service.logout s st tok now).2) tok now'
          = .unauthorized) := by
  have hparse : ∀ t : Time, t < tok.claims.exp →
      jwtParseToken tok s.jwtSecret t = .ok tok.claims := by
    intro t ht
    unfold jwtParseToken
    simp [hsig, not_le.mpr ht]
  have hlogout : Service.logout s st tok now =
      (.ok (), { st with cache :=
        (Cache.set st.cache (.jwtBlacklist tok) "1" (tok.claims.exp - now) now) }) := by
    unfold Service.logout
    rw [hparse now hlive]
    simp [Int.sub_pos.mpr hlive]
  refine ⟨by rw [hlogout], by rw [hlogout]; rfl, ?_⟩
  intro now' _ hlive'
  unfold authMiddleware
  rw [hparse now' hlive']
  have hbl : Service.isTokenBlacklisted ((Service.logout s st tok now).2) tok
      now' = true := by
    rw [hlogout]
    unfold Service.isTokenBlacklisted Cache.set Cache.existsKey
    rw [List.any_cons]
    simp
    exact Or.inl hlive'
  rw [hbl]
  rfl

/-- Claim C4 witness: logging out `fixTok` at instant 5 (remaining lifetime
10) succeeds, and presenting the same still-valid token to the middleware at
instant 6 is rejected. -/
theorem logout_blacklists_token_witness :
    (Service.logout fixSvc fixUserSt fixTok 5).1 = .ok ()
    ∧ authMiddleware fixSvc (Service.logout fixSvc fixUserSt fixTok 5).2
        fixTok 6 = .unauthorized :=
  ⟨(logout_blacklists_token fixSvc fixUserSt fixTok 5 rfl (by decide)).1,
   (logout_blacklists_token fixSvc fixUserSt fixTok 5 rfl (by decide)).2.2
      6 (by decide) (by decide)⟩

/-- Deleting the `user:%d:active_tokens` cache key removes no
`jwt:blacklist:%s` entry: the two key spaces are disjoint. -/
theorem existsKey_del_user_tokens (c : Cache) (uid : Int) (tok : SignedToken)
    (now : Time) :
    Cache.existsKey (Cache.del c (.userActiveTokens uid)) (.jwtBlacklist tok)
        now
      = Cache.existsKey c (.jwtBlacklist tok) now := by
  unfold Cache.del Cache.existsKey
  induction c with
  | nil => rfl
  | cons e c ih =>
    rw [List.filter_cons]
    by_cases he : e.key = CacheKey.userActiveTokens uid
    · have h1 : decide (e.key ≠ CacheKey.userActiveTokens uid) = false := by
        simp [he]
      have h2 : decide (e.key = CacheKey.jwtBlacklist tok) = false := by
        simp [he]
      simp only [h1, if_false, Bool.false_eq_true]
      rw [ih, List.any_cons, h2]
      simp
    · have h1 : decide (e.key ≠ CacheKey.userActiveTokens uid) = true := by
        simp [he]
      simp only [h1, if_true]
      rw [List.any_cons, List.any_cons, ih]

/-- Claim C10: `RevokeAllUserSessions` only marks the user's refresh-token
rows revoked and deletes the single `user:%d:active_tokens` cache key; it
writes no blacklist entry, so both `IsTokenBlacklisted` and the authorization
middleware's outcome are unchanged for every token at every instant — a
previously issued access token keeps passing until its natural expiry. -/
theorem revokeAllUserSessions_frame (s : Service) (st : SysState) (uid : Int) :
    (Service.revokeAllUserSessions st uid).db =
      { st.db with refreshTokens := st.db.refreshTokens.map (fun r =>
          if r.userId = uid then { r with revoked := true } else r) }
    ∧ (Service.revokeAllUserSessions st uid).cache =
        List.filter (fun e => decide (e.key ≠ CacheKey.userActiveTokens uid))
          st.cache
    ∧ (∀ tok now, Service.isTokenBlacklisted
          (Service.revokeAllUserSessions st uid) tok now
        = Service.isTokenBlacklisted st tok now)
    ∧ (∀ tok now, authMiddleware s (Service.revokeAllUserSessions st uid) tok
          now
        = authMiddleware s st tok now) := by
  have hbl : ∀ tok now, Service.isTokenBlacklisted
      (Service.revokeAllUserSessions st uid) tok now
      = Service.isTokenBlacklisted st tok now := by
    intro tok now
    unfold Service.isTokenBlacklisted Service.revokeAllUserSessions
    exact existsKey_del_user_tokens st.cache uid tok now
  refine ⟨rfl, rfl, hbl, ?_⟩
  intro tok now
  unfold authMiddleware
  cases jwtParseToken tok s.jwtSecret now with
  | error e => rfl
  | ok c => rw [hbl tok now]

/-- Writing back the purged entry list of a key leaves that key holding
exactly the purged list. -/
theorem rlEntries_rlUpdate_self (rl : RlStore) (k : String) (ts : List Time) :
    rlEntries (rlUpdate rl k ts) k = ts := by
  unfold rlUpdate rlEntries
  simp

/-- Updating one key's entry list leaves every other key's entries
unchanged. -/
theorem rlEntries_rlUpdate_ne (rl : RlStore) (k k' : String) (ts : List Time)
    (h : k' ≠ k) :
    rlEntries (rlUpdate rl k ts) k' = rlEntries rl k' := by
  unfold rlUpdate
  rw [rlEntries]
  have hk : ¬ ((k, ts).1 = k') := fun e => h e.symm
  rw [if_neg hk]
  induction rl with
  | nil => rfl
  | cons kv rest ih =>
    rw [List.filter_cons]
    by_cases h1 : kv.1 = k
    · have h2 : decide (kv.1 ≠ k) = false := by simp [h1]
      have h3 : ¬ (kv.1 = k') := by rw [h1]; exact fun e => h e.symm
      rw [h2]
      simp only [Bool.false_eq_true, if_false]
      rw [ih, rlEntries, if_neg h3]
    · have h2 : decide (kv.1 ≠ k) = true := by simp [h1]
      rw [h2]
      simp only [if_true]
      rw [rlEntries, rlEntries]
      by_cases h3 : kv.1 = k'
      · rw [if_pos h3, if_pos h3]
      · rw [if_neg h3, if_neg h3, ih]

/-- `Check`'s purge does not change any key's in-window count: the purged
key keeps exactly its in-window entries (the filter is idempotent), and
other keys are untouched. -/
theorem rlWindowCount_rlCheck_snd (rl : RlStore) (k k' : String) (l : Nat)
    (w : Duration) (now : Time) :
    rlWindowCount (rlCheck rl k l w now).2 k' w now
      = rlWindowCount rl k' w now := by
  by_cases hk : k' = k
  · subst hk
    unfold rlWindowCount rlCheck
    rw [rlEntries_rlUpdate_self]
    simp [List.filter_filter]
  · unfold rlWindowCount rlCheck
    rw [rlEntries_rlUpdate_ne _ _ _ _ hk]

/-- Claim C1 (amended): whenever the identifier's — or the client IP's —
sliding-window count of recorded failed attempts strictly exceeds its
configured limit, the rate-limited login fails with `RateLimited`; the
conclusion holds for every store state and every password, so no
credential-store lookup or password comparison can influence it. The
strictness comes from `RateLimiter.Check`'s `count > limit` comparison. -/
theorem loginRateLimited_blocks_over_limit (s : Service) (rc : RlConfig)
    (st : SysState) (rl : RlStore) (identifier password ip : String)
    (now : Time) (fresh : String)
    (h : rc.loginLimit <
          rlWindowCount rl ("login:attempts:" ++ identifier) rc.window now
        ∨ rc.ipLimit < rlWindowCount rl ("login:ip:" ++ ip) rc.window now) :
    (s.loginRateLimited rc st rl identifier password ip now fresh).1
      = .error .rateLimited := by
  have h1 : (rlCheck rl ("login:attempts:" ++ identifier) rc.loginLimit
        rc.window now).1.1
      = decide (rc.loginLimit <
          rlWindowCount rl ("login:attempts:" ++ identifier) rc.window now) :=
    rfl
  have h2 : (rlCheck (rlCheck rl ("login:attempts:" ++ identifier)
          rc.loginLimit rc.window now).2 ("login:ip:" ++ ip) rc.ipLimit
          rc.window now).1.1
      = decide (rc.ipLimit <
          rlWindowCount rl ("login:ip:" ++ ip) rc.window now) := by
    rw [show ∀ X : RlStore, (rlCheck X ("login:ip:" ++ ip) rc.ipLimit
        rc.window now).1.1
      = decide (rc.ipLimit <
          rlWindowCount X ("login:ip:" ++ ip) rc.window now) from
        fun X => rfl]
    rw [rlWindowCount_rlCheck_snd]
  have hcond : ((rlCheck rl ("login:attempts:" ++ identifier) rc.loginLimit
        rc.window now).1.1
      || (rlCheck (rlCheck rl ("login:attempts:" ++ identifier) rc.loginLimit
          rc.window now).2 ("login:ip:" ++ ip) rc.ipLimit rc.window
          now).1.1) = true := by
    rcases h with h | h
    · rw [h1, decide_eq_true h, Bool.true_or]
    · rw [h2, decide_eq_true h, Bool.or_true]
  unfold Service.loginRateLimited
  simp only [hcond, if_true]

/-- Claim C1 counterexample: with the configured identifier limit 1 and a
window holding exactly 1 (= the limit, hence "at least the limit") failed
attempt for `alice`, the next correct-password login succeeds instead of
failing with `RateLimited` — `Check` blocks only strictly above the limit. -/
theorem loginRateLimited_at_limit_not_blocked :
    rlWindowCount fixRlAtLimit "login:attempts:alice" fixRlConfig.window 100
        = fixRlConfig.loginLimit
    ∧ (Service.loginRateLimited fixSvc fixRlConfig fixUserSt fixRlAtLimit
        "alice" "pw" "9.9.9.9" 100 "r1").1.toOption.isSome = true :=
  ⟨rfl, rfl⟩

/-- Claim C1 witness: with 2 (> limit 1) failed attempts for `alice` inside
the window, the login attempt is rejected as `RateLimited`. -/
theorem loginRateLimited_blocks_over_limit_witness :
    (Service.loginRateLimited fixSvc fixRlConfig fixUserSt fixRlOverLimit
        "alice" "pw" "9.9.9.9" 100 "r1").1 = .error .rateLimited :=
  loginRateLimited_blocks_over_limit fixSvc fixRlConfig fixUserSt
    fixRlOverLimit "alice" "pw" "9.9.9.9" 100 "r1" (Or.inl (by decide))

/-- The authentication tail adds at most the freshly generated refresh-token
row to the `refresh_tokens` table. -/
theorem mem_completeLogin_refreshTokens (s : Service) (st : SysState)
    (p : ResolvedPrincipal) (pw : String) (now : Time) (f : String)
    (r : RefreshTokenRow)
    (h : r ∈ ((s.completeLogin st p pw now f).2).db.refreshTokens) :
    r ∈ st.db.refreshTokens ∨ r.token = f := by
  revert h
  unfold Service.completeLogin Db.createRefreshToken
  split
  · exact fun h => Or.inl h
  · split
    · exact fun h => Or.inl h
    · split
      · exact fun h => Or.inl h
      · rename_i db' heq
        intro h
        split at heq
        · exact absurd heq (by simp)
        · injection heq with heq2
          rw [← heq2] at h
          dsimp only at h
          rcases List.mem_append.mp h with h | h
          · exact Or.inl h
          · right
            simp at h
            rw [h]

/-- `Login` adds at most the freshly generated refresh-token row to the
`refresh_tokens` table. -/
theorem mem_login_refreshTokens (s : Service) (st : SysState)
    (identifier pw : String) (now : Time) (f : String) (r : RefreshTokenRow)
    (h : r ∈ ((s.login st identifier pw now f).2).db.refreshTokens) :
    r ∈ st.db.refreshTokens ∨ r.token = f := by
  revert h
  unfold Service.login
  split
  · exact fun h => mem_completeLogin_refreshTokens s st _ pw now f r h
  · split
    · exact fun h => mem_completeLogin_refreshTokens s st _ pw now f r h
    · split
      · exact fun h => mem_completeLogin_refreshTokens s st _ pw now f r h
      · split
        · exact fun h => mem_completeLogin_refreshTokens s st _ pw now f r h
        · exact fun h => Or.inl h

/-- After `RefreshToken`, every `refresh_tokens` row either descends from an
existing row — same token string, revocation only ever turned on — or is the
freshly inserted row. -/
theorem mem_refreshToken_refreshTokens (s : Service) (st : SysState)
    (old : String) (now : Time) (f : String) (r' : RefreshTokenRow)
    (h : r' ∈ ((s.refreshToken st old now f).2).db.refreshTokens) :
    (∃ x ∈ st.db.refreshTokens,
        r'.token = x.token ∧ (x.revoked = true → r'.revoked = true))
      ∨ r'.token = f := by
  revert h
  unfold Service.refreshToken Db.createRefreshToken Db.revokeRefreshToken
  split
  · exact fun h => Or.inl ⟨r', h, rfl, fun hx => hx⟩
  · split
    · exact fun h => Or.inl ⟨r', h, rfl, fun hx => hx⟩
    · split
      · exact fun h => Or.inl ⟨r', h, rfl, fun hx => hx⟩
      · split
        · exact fun h => Or.inl ⟨r', h, rfl, fun hx => hx⟩
        · dsimp only
          split
          · exact fun h => Or.inl ⟨r', h, rfl, fun hx => hx⟩
          · rename_i db' heq
            intro h
            split at heq
            · exact absurd heq (by simp)
            · injection heq with heq2
              rw [← heq2] at h
              dsimp only at h
              rcases List.mem_map.mp h with ⟨x, hx, rfl⟩
              rcases List.mem_append.mp hx with hx | hx
              · left
                refine ⟨x, hx, ?_, ?_⟩
                · by_cases ht : x.token = old
                  · simp [ht]
                  · simp [ht]
                · intro hrev
                  by_cases ht : x.token = old
                  · simp [ht]
                  · simp [ht]
                    exact hrev
              · right
                simp at hx
                rw [hx]
                split
                · rfl
                · rfl

/-- `Logout` never touches the relational store. -/
theorem logout_db_eq (s : Service) (st : SysState) (tok : SignedToken)
    (now : Time) : ((s.logout st tok now).2).db = st.db := by
  unfold Service.logout
  split
  · rfl
  · dsimp only
    split <;> rfl

/-- One service operation whose fresh refresh-token input differs from `tok`
preserves "every row holding `tok` is revoked". -/
theorem applyOp_preserves_revokedEverywhere (s : Service) (st : SysState)
    (op : Op) (tokStr : String) (hf : op.freshTokenOf ≠ some tokStr)
    (hinv : revokedEverywhere st tokStr) :
    revokedEverywhere (s.applyOp st op) tokStr := by
  cases op with
  | opLogin identifier pw now f =>
    intro r hr ht
    rcases mem_login_refreshTokens s st identifier pw now f r hr with h | h
    · exact hinv r h ht
    · exact absurd (congrArg some (by rw [← h]; exact ht)) hf
  | opRefresh t now f =>
    intro r hr ht
    rcases mem_refreshToken_refreshTokens s st t now f r hr with
      ⟨x, hx, htk, hrev⟩ | h
    · exact hrev (hinv x hx (by rw [← htk]; exact ht))
    · exact absurd (congrArg some (by rw [← h]; exact ht)) hf
  | opLogout tok now =>
    intro r hr ht
    rw [show (s.applyOp st (Op.opLogout tok now)) = (s.logout st tok now).2
      from rfl] at hr
    rw [logout_db_eq] at hr
    exact hinv r hr ht
  | opRevokeAll uid =>
    intro r hr ht
    simp only [Service.applyOp, Service.revokeAllUserSessions,
      Db.revokeAllUserRefreshTokens] at hr
    rcases List.mem_map.mp hr with ⟨x, hx, rfl⟩
    by_cases hu : x.userId = uid
    · simp [hu]
    · simp [hu] at ht ⊢
      exact hinv x hx ht
  | opSweep now =>
    intro r hr ht
    simp only [Service.applyOp, Db.cleanExpiredRefreshTokens] at hr
    exact hinv r (List.mem_filter.mp hr).1 ht

/-- Any sequence of service operations whose fresh refresh-token inputs all
differ from `tok` preserves "every row holding `tok` is revoked". -/
theorem applyOps_preserves_revokedEverywhere (s : Service) (ops : List Op) :
    ∀ (st : SysState) (tokStr : String),
      (∀ op ∈ ops, op.freshTokenOf ≠ some tokStr) →
      revokedEverywhere st tokStr →
      revokedEverywhere (s.applyOps st ops) tokStr := by
  induction ops with
  | nil => exact fun st t _ hinv => hinv
  | cons op ops ih =>
    intro st t hops hinv
    exact ih (s.applyOp st op) t
      (fun o ho => hops o (List.mem_cons_of_mem op ho))
      (applyOp_preserves_revokedEverywhere s st op t
        (hops op (List.mem_cons_self op ops)) hinv)

/-- The store lookup returns no row for a token string all of whose rows are
revoked: the query filters on `revoked = FALSE`. -/
theorem getRefreshToken_eq_none_of_revoked (st : SysState) (tokStr : String)
    (now : Time) (hinv : revokedEverywhere st tokStr) :
    st.db.getRefreshToken tokStr now = none := by
  unfold Db.getRefreshToken
  rw [List.find?_eq_none]
  intro x hx
  by_cases ht : x.token = tokStr
  · simp [ht, hinv x hx ht]
  · simp [ht]

/-- Claim C3: a refresh token is single-use. After one successful
`RefreshToken(oldToken)` call, every row holding `oldToken` is revoked, this
stays true across any further sequence of service operations whose fresh
random tokens never collide with `oldToken`, and therefore every later
`RefreshToken(oldToken)` call fails with `ErrInvalidCredentials` — the store
lookup only returns rows with `revoked = FALSE` and a future expiry. -/
theorem refreshToken_single_use (s : Service) (st : SysState)
    (oldToken : String) (now : Time) (fresh : String) (v : SignedToken × String)
    (hok : (s.refreshToken st oldToken now fresh).1 = .ok v)
    (ops : List Op) (hops : ∀ op ∈ ops, op.freshTokenOf ≠ some oldToken)
    (now' : Time) (fresh' : String) :
    (s.refreshToken
        (s.applyOps (s.refreshToken st oldToken now fresh).2 ops)
        oldToken now' fresh').1 = .error .invalidCredentials := by
  have hinv : revokedEverywhere (s.refreshToken st oldToken now fresh).2
      oldToken := by
    revert hok
    unfold Service.refreshToken Db.createRefreshToken Db.revokeRefreshToken
    split
    · intro hok; simp at hok
    · split
      · intro hok; simp at hok
      · split
        · intro hok; simp at hok
        · split
          · intro hok; simp at hok
          · split
            · intro hok; simp at hok
            · intro _ r hr ht
              dsimp only at hr
              rcases List.mem_map.mp hr with ⟨x, hx, rfl⟩
              by_cases hxt : x.token = oldToken
              · simp [hxt]
              · simp [hxt] at ht ⊢
  have hinv2 := applyOps_preserves_revokedEverywhere s ops
    (s.refreshToken st oldToken now fresh).2 oldToken hops hinv
  obtain ⟨X, hX⟩ : ∃ X, s.applyOps (s.refreshToken st oldToken now fresh).2 ops
      = X := ⟨_, rfl⟩
  rw [hX] at hinv2 ⊢
  have hnone := getRefreshToken_eq_none_of_revoked X oldToken now' hinv2
  unfold Service.refreshToken
  rw [hnone]

/-- Claim C3 witness: rotating `old` once at instant 5 succeeds; after a
background sweep, a second use of `old` fails with `ErrInvalidCredentials`. -/
theorem refreshToken_single_use_witness :
    (Service.refreshToken fixSvc
        (Service.applyOps fixSvc
          (Service.refreshToken fixSvc fixRefreshSt "old" 5 "new1").2
          [Op.opSweep 999])
        "old" 6 "new2").1 = .error .invalidCredentials :=
  refreshToken_single_use fixSvc fixRefreshSt "old" 5 "new1"
    (jwtGenerateToken 1 "alice" "a@x.com" "admin" "s" ["pos:sell"]
      .access 15 5, "new1")
    (by decide) [Op.opSweep 999] (by decide) 6 "new2"

end Herp
